import Mathlib

/-!
Verification of the Five9 Campaign Manager (a single-file Streamlit
application, `src/app.py`) against its natural-language specification.

The Python source is shallowly embedded below:

* pure string manipulation (`ps_escape`) becomes a Lean function on
  character lists (Python's `str.replace` with a one-character needle
  maps each occurrence independently);
* the PowerShell single-quoted string-literal lexer is embedded so that
  escaping round-trips can be stated;
* the three install-job scratch files (`running.lock`, `stdout.txt`,
  `stderr.txt`) plus the generated wrapper script become an explicit
  filesystem record `FS`, and the Streamlit button handlers become pure
  state transformers on it;
* decoded JSON values (the result of Python's `json.loads`) become the
  inductive `JVal`; non-integral JSON numbers do not occur in any claim
  and are not modelled.  The parsers `parse_campaigns_json` and
  `parse_action_results` take both the raw string and the decode result
  (`Except String JVal`, where `.error` stands for `json.JSONDecodeError`)
  since the source consults the raw string only for its emptiness test;
* Python control flow that can raise becomes `Except PyErr`.
-/

/-- The single-quote character `U+0027`, written via its code point. -/
def squote : Char := Char.ofNat 39

/-- The double-quote character `U+0022`. -/
def dquote : Char := Char.ofNat 34

/-- Wrap a string in single quotes, as done by the f-strings of the source
when interpolating an escaped value into a PowerShell command. -/
def q (s : String) : String := String.mk (squote :: s.data ++ [squote])

/-- Character-level body of `ps_escape`: Python's
`value.replace("'", "''")` doubles every single-quote character and leaves
all other characters unchanged. -/
def ps_escape_list : List Char → List Char
  | [] => []
  | c :: rest =>
    if c = squote then squote :: squote :: ps_escape_list rest
    else c :: ps_escape_list rest

/-- `app.py` line 41: `def ps_escape(value): return (value or "").replace("'", "''")`.
On an actual `str` argument, `value or ""` is the identity (the empty string
is mapped to itself), so the function is the replacement alone. -/
def ps_escape (value : String) : String := String.mk (ps_escape_list value.data)

/-- PowerShell's lexer for the body of a single-quoted string literal,
positioned just after the opening quote: `''` denotes one literal quote,
a lone `'` closes the literal, and every other character stands for
itself.  Returns the literal's value together with the unconsumed input,
or `none` when the literal is unterminated. -/
def psLexSingle : List Char → Option (String × List Char)
  | [] => none
  | c :: rest =>
    if c = squote then
      match rest with
      | [] => some ("", [])
      | c2 :: rest2 =>
        if c2 = squote then
          match psLexSingle rest2 with
          | some (s, r) => some (String.mk (squote :: s.data), r)
          | none => none
        else some ("", rest)
    else
      match psLexSingle rest with
      | some (s, r) => some (String.mk (c :: s.data), r)
      | none => none

/-- PowerShell's reading of a single-quoted string literal from the start
of its input: an opening quote followed by the literal body. -/
def psParseQuoted (l : List Char) : Option (String × List Char) :=
  match l with
  | [] => none
  | c :: rest => if c = squote then psLexSingle rest else none

/-!
## Decoded JSON values and Python value helpers

`JVal` models the value returned by `json.loads`: strings, integers,
booleans (in Python a `bool` is an instance of `int`), `null`/`None`,
arrays and objects.  An object is kept as its field list; lookups follow
Python dict semantics (a later binding for the same key overwrites an
earlier one).
-/

inductive JVal where
  | str (s : String)
  | num (n : Int)
  | bool (b : Bool)
  | null
  | arr (elems : List JVal)
  | obj (fields : List (String × JVal))

/-- `repr` of a Python string: the text wrapped in single quotes.  (CPython
additionally escapes embedded quotes, backslashes and control characters
and may switch to double quotes; no claim evaluates `str()` on a container
holding such a string, so that refinement is not modelled.) -/
def pyReprStr (s : String) : String := String.mk (squote :: s.data ++ [squote])

mutual

/-- Python `repr` on decoded JSON values: `repr(True) = "True"`,
`repr(None) = "None"`, lists as `[e1, e2]`, dicts as `{k: v}` with
`repr`ed keys and values. -/
def pyRepr : JVal → String
  | .str s => pyReprStr s
  | .num n => toString n
  | .bool true => "True"
  | .bool false => "False"
  | .null => "None"
  | .arr elems => "[" ++ String.intercalate ", " (pyReprList elems) ++ "]"
  | .obj fields => "\x7b" ++ String.intercalate ", " (pyReprFields fields) ++ "\x7d"

def pyReprList : List JVal → List String
  | [] => []
  | v :: vs => pyRepr v :: pyReprList vs

def pyReprFields : List (String × JVal) → List String
  | [] => []
  | (k, v) :: fs => (pyReprStr k ++ ": " ++ pyRepr v) :: pyReprFields fs

end

/-- Python `str()` on decoded JSON values: the identity on strings, and
`repr` on every other decoded value (`str(3) = "3"`, `str(True) = "True"`,
`str(None) = "None"`, and `str` of a container is its `repr`). -/
def pyStr : JVal → String
  | .str s => s
  | v => pyRepr v

/-- Python truthiness of a decoded JSON value: empty string, zero, `False`,
`None` and empty containers are falsy; everything else is truthy. -/
def pyTruthy : JVal → Bool
  | .str s => !s.isEmpty
  | .num n => n != 0
  | .bool b => b
  | .null => false
  | .arr elems => !elems.isEmpty
  | .obj fields => !fields.isEmpty

/-- Python's name for the type of a decoded JSON value, as it appears in
an `AttributeError` message. -/
def pyTypeName : JVal → String
  | .str _ => "str"
  | .num _ => "int"
  | .bool _ => "bool"
  | .null => "NoneType"
  | .arr _ => "list"
  | .obj _ => "dict"

/-- `isinstance(v, int)` on a decoded JSON value.  Note that Python's
`bool` is a subclass of `int`, so decoded JSON booleans count as ints. -/
def pyIsInt : JVal → Bool
  | .num _ => true
  | .bool _ => true
  | _ => false

/-- The integer value of a decoded JSON value that is an `int` instance
(`True` is `1`, `False` is `0`).  Only consulted under `pyIsInt`. -/
def pyIntOf : JVal → Int
  | .num n => n
  | .bool true => 1
  | .bool false => 0
  | _ => 0

/-- Python `dict` lookup on an object's field list: the value of the last
binding of the key, as `json.loads` and dict assignment keep the last
value written for a duplicated key. -/
def dictGet : List (String × JVal) → String → Option JVal
  | [], _ => none
  | p :: rest, k =>
    match dictGet rest k with
    | some v => some v
    | none => if p.1 = k then some p.2 else none

/-- Python `str.lower`, character by character (`Char.toLower` agrees with
Python on the ASCII keys and state labels this program lowercases). -/
def strLower (s : String) : String := String.mk (s.data.map Char.toLower)

/-- A Python exception escaping one of the parsers. -/
inductive PyErr where
  | attributeError (typeName : String) (attr : String)
deriving DecidableEq

/-!
## Result Normalizer: `parse_campaigns_json` (app.py lines 121-160)
-/

/-- `app.py` lines 117-118: `STATE_MAP = {0: "NotRunning", 1: "Starting",
2: "Running", 3: "Stopping"}`, as a partial lookup table. -/
def STATE_MAP : Int → Option String
  | 0 => some "NotRunning"
  | 1 => some "Starting"
  | 2 => some "Running"
  | 3 => some "Stopping"
  | _ => none

/-- `app.py` line 118: `TYPE_MAP = {0: "Inbound", 1: "Outbound", 2: "AutoDial"}`. -/
def TYPE_MAP : Int → Option String
  | 0 => some "Inbound"
  | 1 => some "Outbound"
  | 2 => some "AutoDial"
  | _ => none

/-- `app.py` lines 144-152: `if isinstance(raw, int): out = MAP.get(raw,
str(raw)) else: out = str(raw)`. -/
def normCode (table : Int → Option String) (v : JVal) : String :=
  if pyIsInt v then (table (pyIntOf v)).getD (pyStr v) else pyStr v

/-- `app.py` line 139: `{k.lower(): v for k, v in rec.items()}` — the field
list with every key lowercased (later duplicates still win in `dictGet`). -/
def lowerFields (fields : List (String × JVal)) : List (String × JVal) :=
  fields.map (fun p => (strLower p.1, p.2))

/-- One row of the campaigns table: the columns `Name`, `State`, `Type` of
the DataFrame built at `app.py` line 154 (`Type` is a Lean keyword, hence
the field name `Typ`). -/
structure CampaignRecord where
  Name : JVal
  State : String
  Typ : String

/-- `app.py` lines 139-154: normalization of one record of the decoded
campaign list. -/
def normalizeRecord (rec : List (String × JVal)) : CampaignRecord :=
  let lower_rec := lowerFields rec
  let name := (dictGet lower_rec "name").getD (JVal.str "")
  let raw_state := (dictGet lower_rec "state").getD (JVal.str "")
  let raw_type := (dictGet lower_rec "type").getD (JVal.str "")
  { Name := name, State := normCode STATE_MAP raw_state, Typ := normCode TYPE_MAP raw_type }

/-- `app.py` lines 130-135: a decoded dict becomes a one-element record
list, a decoded list is used as is, anything else yields no records. -/
def toRecords : JVal → List JVal
  | .obj fields => [JVal.obj fields]
  | .arr elems => elems
  | _ => []

/-- `rec.items()`: succeeds on a dict; on any other decoded value Python
raises `AttributeError` (the object has no attribute `items`). -/
def itemsOf : JVal → Except PyErr (List (String × JVal))
  | .obj fields => .ok fields
  | v => .error (.attributeError (pyTypeName v) "items")

/-- The `for rec in records` loop of `app.py` lines 138-154: normalizes
each record in order, propagating the first `AttributeError` raised by a
non-dict record. -/
def normalizeAll : List JVal → Except PyErr (List CampaignRecord)
  | [] => .ok []
  | r :: rest =>
    match itemsOf r with
    | .error e => .error e
    | .ok fields =>
      match normalizeAll rest with
      | .error e => .error e
      | .ok tl => .ok (normalizeRecord fields :: tl)

/-- `app.py` lines 121-160, `parse_campaigns_json`.  `decoded` is the
result of `json.loads raw_json` (`.error` standing for a raised
`json.JSONDecodeError`); it is only consulted when `raw_json` is nonempty,
mirroring the source's `if not raw_json` guard.  The empty DataFrame of
the source is the empty record list here. -/
def parse_campaigns_json (raw_json : String) (decoded : Except String JVal) :
    Except PyErr (List CampaignRecord) :=
  if raw_json = "" then .ok []
  else
    match decoded with
    | .error _ => .ok []
    | .ok parsed => normalizeAll (toRecords parsed)

/-!
## Result Normalizer: `parse_action_results` (app.py lines 187-212)
-/

/-- `record.get("Name", "(unknown)")` followed by `str(...)` — the exact,
case-sensitive `Name` lookup of `app.py` line 206. -/
def recName (fields : List (String × JVal)) : String :=
  pyStr ((dictGet fields "Name").getD (JVal.str "(unknown)"))

/-- `str(record.get("Error") or "Unknown error")` of `app.py` line 210:
a missing or falsy error value becomes `"Unknown error"`. -/
def recErr (fields : List (String × JVal)) : String :=
  let e := (dictGet fields "Error").getD JVal.null
  if pyTruthy e then pyStr e else "Unknown error"

/-- Truthiness of `record.get("Success")` (`app.py` line 207): missing
`Success` defaults to `None`, which is falsy. -/
def recSuccess (fields : List (String × JVal)) : Bool :=
  pyTruthy ((dictGet fields "Success").getD JVal.null)

/-- Python dict assignment `d[k] = v`: overwrites the value in place when
the key is present, otherwise appends the new binding. -/
def dictInsert (d : List (String × String)) (k v : String) : List (String × String) :=
  if d.any (fun p => p.1 = k) then d.map (fun p => if p.1 = k then (k, v) else p)
  else d ++ [(k, v)]

/-- One iteration of the `for record in records` loop of `app.py` lines
205-210, acting on the `(successes, failures)` accumulator.  On a
non-dict record, `record.get` raises `AttributeError`. -/
def actionStep (record : JVal) (acc : List String × List (String × String)) :
    Except PyErr (List String × List (String × String)) :=
  match record with
  | .obj fields =>
    if recSuccess fields then .ok (acc.1 ++ [recName fields], acc.2)
    else .ok (acc.1, dictInsert acc.2 (recName fields) (recErr fields))
  | v => .error (.attributeError (pyTypeName v) "get")

/-- The whole loop of `app.py` lines 205-210. -/
def processActions : List JVal → List String × List (String × String) →
    Except PyErr (List String × List (String × String))
  | [], acc => .ok acc
  | r :: rest, acc =>
    match actionStep r acc with
    | .error e => .error e
    | .ok acc2 => processActions rest acc2

/-- `app.py` lines 187-212, `parse_action_results`.  As with
`parse_campaigns_json`, `decoded` is the outcome of `json.loads raw_json`,
consulted only when `raw_json` is nonempty (`if not raw_json` guard at
line 188 returns `([], {})` first).  The failures dict is an ordered
association list with Python dict insertion semantics. -/
def parse_action_results (raw_json : String) (decoded : Except String JVal) :
    Except PyErr (List String × List (String × String)) :=
  if raw_json = "" then .ok ([], [])
  else
    match decoded with
    | .error _ => .ok ([], [("(unknown)", "Failed to parse PowerShell result.")])
    | .ok parsed => processActions (toRecords parsed) ([], [])

/-!
## Install Job Tracker (app.py lines 15-19, 56-93, 231-264)

The three scratch files under the temp directory (`running.lock`,
`stdout.txt`, `stderr.txt`) and the generated wrapper script are modelled
as an explicit filesystem record: `none` means the file does not exist,
`some s` that it exists with content `s`.  The handlers of the Streamlit
buttons become pure state transformers; a launched detached process is
recorded as a boolean flag.
-/

structure FS where
  lock : Option String
  stdoutF : Option String
  stderrF : Option String
  script : Option String
deriving DecidableEq

/-- The value of `get_install_status()` (app.py lines 87-93). -/
structure InstallStatus where
  running : Bool
  stdout : String
  stderr : String
  done : Bool
deriving DecidableEq

/-- `app.py` lines 87-93: `running` iff the lock file exists; `stdout` and
`stderr` are the stripped file contents when present, else `""`; `done`
iff not running and at least one output file exists.  (Python's
`str.strip` is modelled by `String.trim`; both strip surrounding
whitespace, and no claim depends on the exact whitespace set.) -/
def get_install_status (fs : FS) : InstallStatus :=
  let running := fs.lock.isSome
  let stdout := match fs.stdoutF with | some s => s.trim | none => ""
  let stderr := match fs.stderrF with | some s => s.trim | none => ""
  { running := running, stdout := stdout, stderr := stderr,
    done := !running && (fs.stdoutF.isSome || fs.stderrF.isSome) }

/-- The wrapper script text written by `start_install_detached` (app.py
lines 63-67), with the three artifact paths passed in (the concrete
temp-directory prefix is environment-dependent and irrelevant here). -/
def wrapper_script (command stdoutPath stderrPath lockPath : String) : String :=
  "try \x7b " ++ command ++ " | Out-File -FilePath " ++ q stdoutPath ++
    " -Encoding utf8 \x7d " ++
  "catch \x7b $_.Exception.Message | Out-File -FilePath " ++ q stderrPath ++
    " -Encoding utf8 \x7d\n" ++
  "finally \x7b Remove-Item -Path " ++ q lockPath ++
    " -Force -ErrorAction SilentlyContinue \x7d"

/-- `app.py` lines 56-84, `start_install_detached`: truncates both output
files to empty, writes `running` into the lock file, writes the wrapper
script, and spawns the detached process (recorded as the `true` flag). -/
def start_install_detached (command : String) (fs : FS) : FS × Bool :=
  let fs1 : FS := { fs with stdoutF := some "", stderrF := some "", lock := some "running" }
  let fs2 : FS := { fs1 with
    script := some (wrapper_script command "stdout.txt" "stderr.txt" "running.lock") }
  (fs2, true)

/-- The installer command of `app.py` lines 232-235. -/
def install_command : String :=
  "irm " ++
    q "https://raw.githubusercontent.com/Five9DeveloperProgram/PSFive9Admin/main/installer.ps1" ++
    " | iex"

/-- The `Install/Update Five9 Module` button handler (app.py lines
231-241): reads the status first and refuses to start (unchanged state,
no process launched) when an install is already running. -/
def installButtonHandler (fs : FS) : FS × Bool :=
  let pre_status := get_install_status fs
  if pre_status.running then (fs, false)
  else start_install_detached install_command fs

/-- The `Clear Install Status` button handler (app.py lines 260-264):
unlinks each of the lock, stdout and stderr files that exists. -/
def clearInstallStatus (fs : FS) : FS :=
  { fs with lock := none, stdoutF := none, stderrF := none }

/-!
## Campaign filtering (app.py lines 313-321)
-/

/-- The per-row predicate of `campaigns_df["State"].str.lower() ==
"running"` (app.py line 314).  (pandas `.str.lower()` and Python
`str.lower` agree with `String.toLower` on the ASCII labels produced by
the normalizer.) -/
def isRunningRow (r : CampaignRecord) : Bool := strLower r.State == "running"

/-- `app.py` line 314: the boolean mask over the rows. -/
def running_mask (df : List CampaignRecord) : List Bool := df.map isRunningRow

/-- pandas boolean-mask row selection `df[mask]`: keep the rows whose mask
entry is `true`, in order. -/
def maskSelect : List CampaignRecord → List Bool → List CampaignRecord
  | [], _ => []
  | _ :: _, [] => []
  | r :: rs, b :: bs => if b then r :: maskSelect rs bs else maskSelect rs bs

/-- `app.py` lines 315-320: the filtered table is `campaigns_df[running_mask]`
under the `Running` choice and `campaigns_df[~running_mask]` under the
`Otherwise` choice. -/
def filtered_df (df : List CampaignRecord) (choiceRunning : Bool) : List CampaignRecord :=
  if choiceRunning then maskSelect df (running_mask df)
  else maskSelect df ((running_mask df).map (fun b => !b))

/-!
## Auxiliary definitions used by the statements below
-/

/-- Whether a decoded JSON value is an object (a Python dict). -/
def isObjB : JVal → Bool
  | .obj _ => true
  | _ => false

/-- Whether a Python computation returned normally (no exception). -/
def isOkB {α : Type} : Except PyErr α → Bool
  | .ok _ => true
  | .error _ => false

/-- The names of the records with truthy `Success`, in input order — the
value the successes list of `parse_action_results` must carry. -/
def successNames (recs : List (List (String × JVal))) : List String :=
  (recs.filter recSuccess).map recName

/-- The `(name, message)` pairs of the records with missing or falsy
`Success`, in input order. -/
def failurePairs (recs : List (List (String × JVal))) : List (String × String) :=
  (recs.filter (fun f => !recSuccess f)).map (fun f => (recName f, recErr f))

/-- The folded Python-dict build of the failures mapping. -/
def foldInsert (d : List (String × String)) (ps : List (String × String)) :
    List (String × String) :=
  ps.foldl (fun acc p => dictInsert acc p.1 p.2) d

/-- Raw text of the spec's campaign example
`{"Name":"A","State":2,"Type":0}`. -/
def exCampaignRaw : String :=
  "\x7b\"Name\":\"A\",\"State\":2,\"Type\":0\x7d"

/-- `json.loads` of `exCampaignRaw`. -/
def exCampaignJson : JVal :=
  JVal.obj [("Name", JVal.str "A"), ("State", JVal.num 2), ("Type", JVal.num 0)]

/-- Raw text of the spec's bulk-action example
`[{"Name":"A","Success":true},{"Name":"B","Success":false,"Error":"busy"}]`. -/
def exActionRaw : String :=
  "[\x7b\"Name\":\"A\",\"Success\":true\x7d," ++
    "\x7b\"Name\":\"B\",\"Success\":false,\"Error\":\"busy\"\x7d]"

/-- `json.loads` of `exActionRaw`. -/
def exActionJson : JVal :=
  JVal.arr
    [JVal.obj [("Name", JVal.str "A"), ("Success", JVal.bool true)],
     JVal.obj [("Name", JVal.str "B"), ("Success", JVal.bool false),
               ("Error", JVal.str "busy")]]

/-- Raw text of the lowercase-keyed action record `{"name":"A","success":true}`. -/
def lcActionRaw : String := "\x7b\"name\":\"A\",\"success\":true\x7d"

/-- `json.loads` of `lcActionRaw`. -/
def lcActionJson : JVal :=
  JVal.obj [("name", JVal.str "A"), ("success", JVal.bool true)]

/-- Raw text of the lowercase-keyed campaign record
`{"name":"A","state":2,"type":0}`. -/
def lcCampaignRaw : String := "\x7b\"name\":\"A\",\"state\":2,\"type\":0\x7d"

/-- `json.loads` of `lcCampaignRaw`. -/
def lcCampaignJson : JVal :=
  JVal.obj [("name", JVal.str "A"), ("state", JVal.num 2), ("type", JVal.num 0)]

/-- A running campaign row, for concrete instantiations. -/
def rowA : CampaignRecord := { Name := JVal.str "A", State := "Running", Typ := "Inbound" }

/-- A stopped campaign row, for concrete instantiations. -/
def rowB : CampaignRecord := { Name := JVal.str "B", State := "NotRunning", Typ := "Outbound" }

/-- A mixed-state campaign table, for concrete instantiations. -/
def dfEx : List CampaignRecord := [rowA, rowB]

/-!
## Helper lemmas
-/

lemma psLexSingle_escape (v : List Char) (rest : List Char)
    (h : rest.head? ≠ some squote) :
    psLexSingle (ps_escape_list v ++ squote :: rest) = some (String.mk v, rest) := by
  induction v with
  | nil =>
    cases rest with
    | nil => simp [ps_escape_list, psLexSingle]
    | cons c2 rest2 =>
      have hc2 : c2 ≠ squote := by
        intro hc; exact h (by simp [hc])
      simp [ps_escape_list, psLexSingle, hc2]
  | cons c cs ih =>
    by_cases hc : c = squote
    · subst hc
      simp [ps_escape_list, psLexSingle, ih]
    · rw [ps_escape_list]
      simp only [if_neg hc, List.cons_append]
      rw [psLexSingle.eq_def]
      simp [hc, ih]

lemma dictGet_eq_none (fields : List (String × JVal)) (k : String)
    (h : ∀ p ∈ fields, p.1 ≠ k) : dictGet fields k = none := by
  induction fields with
  | nil => rfl
  | cons p rest ih =>
    have hp : p.1 ≠ k := h p (List.mem_cons_self p rest)
    have hrest : dictGet rest k = none := ih (fun x hx => h x (List.mem_cons_of_mem p hx))
    simp [dictGet, hrest, hp]

lemma dictInsert_fresh (d : List (String × String)) (k v : String)
    (h : ∀ p ∈ d, p.1 ≠ k) : dictInsert d k v = d ++ [(k, v)] := by
  have : d.any (fun p => p.1 = k) = false := by
    simp only [List.any_eq_false, decide_eq_true_eq]
    intro p hp
    exact h p hp
  simp [dictInsert, this]

lemma foldInsert_fresh (ps : List (String × String)) (d : List (String × String))
    (hnd : (ps.map Prod.fst).Nodup)
    (hdisj : ∀ p ∈ ps, ∀ e ∈ d, e.1 ≠ p.1) :
    foldInsert d ps = d ++ ps := by
  induction ps generalizing d with
  | nil => simp [foldInsert]
  | cons p rest ih =>
    have hfresh : dictInsert d p.1 p.2 = d ++ [p] := by
      have := dictInsert_fresh d p.1 p.2 (fun e he => hdisj p (List.mem_cons_self p rest) e he)
      simpa using this
    have hnd2 : (rest.map Prod.fst).Nodup := (List.nodup_cons.mp hnd).2
    have hnotin : p.1 ∉ rest.map Prod.fst := (List.nodup_cons.mp hnd).1
    have hdisj2 : ∀ r ∈ rest, ∀ e ∈ d ++ [p], e.1 ≠ r.1 := by
      intro r hr e he
      rcases List.mem_append.mp he with he | he
      · exact hdisj r (List.mem_cons_of_mem p hr) e he
      · have : e = p := by simpa using he
        subst this
        intro hek
        exact hnotin (hek ▸ List.mem_map_of_mem Prod.fst hr)
    calc foldInsert d (p :: rest)
        = foldInsert (dictInsert d p.1 p.2) rest := by simp [foldInsert, List.foldl_cons]
      _ = foldInsert (d ++ [p]) rest := by rw [hfresh]
      _ = (d ++ [p]) ++ rest := ih (d ++ [p]) hnd2 hdisj2
      _ = d ++ p :: rest := by simp

lemma processActions_obj (recs : List (List (String × JVal)))
    (acc : List String × List (String × String)) :
    processActions (recs.map JVal.obj) acc =
      .ok (acc.1 ++ successNames recs, foldInsert acc.2 (failurePairs recs)) := by
  induction recs generalizing acc with
  | nil => simp [processActions, successNames, failurePairs, foldInsert]
  | cons f rest ih =>
    by_cases hs : recSuccess f
    · simp [processActions, actionStep, hs, ih, successNames, failurePairs,
        List.filter_cons, List.append_assoc]
    · simp [processActions, actionStep, hs, ih, successNames, failurePairs,
        List.filter_cons, foldInsert]

lemma normalizeAll_isOk (recs : List JVal) (h : ∀ r ∈ recs, isObjB r = true) :
    isOkB (normalizeAll recs) = true := by
  induction recs with
  | nil => rfl
  | cons r rest ih =>
    have hr : isObjB r = true := h r (List.mem_cons_self r rest)
    have hrest := ih (fun x hx => h x (List.mem_cons_of_mem r hx))
    cases r with
    | obj fields =>
      cases hall : normalizeAll rest with
      | error e => rw [hall] at hrest; simp [isOkB] at hrest
      | ok tl => simp [normalizeAll, itemsOf, hall, isOkB]
    | str s => simp [isObjB] at hr
    | num n => simp [isObjB] at hr
    | bool b => simp [isObjB] at hr
    | null => simp [isObjB] at hr
    | arr elems => simp [isObjB] at hr

lemma processActions_isOk (recs : List JVal) (acc : List String × List (String × String))
    (h : ∀ r ∈ recs, isObjB r = true) :
    isOkB (processActions recs acc) = true := by
  induction recs generalizing acc with
  | nil => rfl
  | cons r rest ih =>
    have hr : isObjB r = true := h r (List.mem_cons_self r rest)
    cases r with
    | obj fields =>
      by_cases hs : recSuccess fields <;>
        simp [processActions, actionStep, hs,
          ih _ (fun x hx => h x (List.mem_cons_of_mem _ hx))]
    | str s => simp [isObjB] at hr
    | num n => simp [isObjB] at hr
    | bool b => simp [isObjB] at hr
    | null => simp [isObjB] at hr
    | arr elems => simp [isObjB] at hr

lemma maskSelect_map (p : CampaignRecord → Bool) (df : List CampaignRecord) :
    maskSelect df (df.map p) = df.filter p := by
  induction df with
  | nil => rfl
  | cons r rs ih =>
    by_cases hp : p r <;> simp [maskSelect, List.filter_cons, hp, ih]

lemma length_filter_add_length_filter_not (p : CampaignRecord → Bool)
    (df : List CampaignRecord) :
    (df.filter p).length + (df.filter (fun r => !p r)).length = df.length := by
  induction df with
  | nil => rfl
  | cons r rs ih =>
    by_cases hp : p r <;> simp [List.filter_cons, hp, ← ih] <;> omega

/-!
## Claims
-/

/-- C1: for every string value, escaping it by doubling each single-quote
character (`ps_escape`) and embedding the result in a single-quoted
PowerShell string literal never terminates the literal early, and the
interpreter's own unescaping of the literal reconstructs the original
value exactly: reading the quoted literal yields the original value and
leaves the trailing input — which, as at every interpolation site of the
source, does not itself begin with a quote — untouched. -/
theorem C1_escape_roundtrip (v : String) (rest : List Char)
    (h : rest.head? ≠ some squote) :
    psParseQuoted (squote :: (ps_escape v).data ++ squote :: rest) = some (v, rest) := by
  show psParseQuoted (squote :: ((ps_escape v).data ++ squote :: rest)) = some (v, rest)
  have hlex : psLexSingle ((ps_escape v).data ++ squote :: rest) = some (v, rest) := by
    have := psLexSingle_escape v.data rest h
    simpa [ps_escape] using this
  simp [psParseQuoted, hlex]

/-- Witness for C1 at a value containing a single quote, with a comma
following the closing quote. -/
theorem C1_escape_roundtrip_witness :
    psParseQuoted (squote :: (ps_escape (String.mk ['O', squote, 'B'])).data
        ++ squote :: [',']) =
      some (String.mk ['O', squote, 'B'], [',']) :=
  C1_escape_roundtrip (String.mk ['O', squote, 'B']) [','] (by decide)

/-- C2: whenever `get_install_status` reports running (the lock artifact
exists), the Install/Update button handler rejects the start: the
filesystem — in particular all three scratch artifacts — is returned
unchanged, and no detached process is launched (the `false` flag). -/
theorem C2_install_start_rejected (fs : FS)
    (h : (get_install_status fs).running = true) :
    installButtonHandler fs = (fs, false) := by
  simp [installButtonHandler, h]

/-- Witness for C2 at a state whose lock artifact exists. -/
theorem C2_install_start_rejected_witness :
    (get_install_status (FS.mk (some "running") (some "") (some "") none)).running = true ∧
    installButtonHandler (FS.mk (some "running") (some "") (some "") none) =
      (FS.mk (some "running") (some "") (some "") none, false) :=
  ⟨rfl, C2_install_start_rejected (FS.mk (some "running") (some "") (some "") none) rfl⟩

/-- C3: for every input string that is empty or fails JSON decoding,
`parse_campaigns_json` returns the empty record sequence and raises no
exception (the result is `.ok`). -/
theorem C3_invalid_input_empty (raw : String) (decoded : Except String JVal)
    (h : raw = "" ∨ ∃ e, decoded = Except.error e) :
    parse_campaigns_json raw decoded = .ok [] := by
  rcases h with h | ⟨e, he⟩
  · simp [parse_campaigns_json, h]
  · subst he
    by_cases hr : raw = "" <;> simp [parse_campaigns_json, hr]

/-- Witness for C3 at the input `not json`, whose decode fails. -/
theorem C3_invalid_input_empty_witness :
    parse_campaigns_json "not json"
      (Except.error "Expecting value: line 1 column 1 (char 0)") = .ok [] :=
  C3_invalid_input_empty "not json" _ (Or.inr ⟨_, rfl⟩)

/-- C4: integer state codes are mapped through the fixed table
`{0 NotRunning, 1 Starting, 2 Running, 3 Stopping}` and integer type codes
through `{0 Inbound, 1 Outbound, 2 AutoDial}`; an integer code outside the
table becomes its decimal string (`99` becomes `"99"`) and a value that is
not an `int` instance passes through as its Python string form; the
record `{"Name":"A","State":2,"Type":0}` yields exactly
`(Name "A", State "Running", Type "Inbound")`. -/
theorem C4_code_tables :
    (STATE_MAP 0 = some "NotRunning" ∧ STATE_MAP 1 = some "Starting" ∧
       STATE_MAP 2 = some "Running" ∧ STATE_MAP 3 = some "Stopping") ∧
    (TYPE_MAP 0 = some "Inbound" ∧ TYPE_MAP 1 = some "Outbound" ∧
       TYPE_MAP 2 = some "AutoDial") ∧
    (∀ rec n, dictGet (lowerFields rec) "state" = some (JVal.num n) →
       (normalizeRecord rec).State = (STATE_MAP n).getD (toString n)) ∧
    (∀ rec n, dictGet (lowerFields rec) "type" = some (JVal.num n) →
       (normalizeRecord rec).Typ = (TYPE_MAP n).getD (toString n)) ∧
    (∀ rec v, dictGet (lowerFields rec) "state" = some v → pyIsInt v = false →
       (normalizeRecord rec).State = pyStr v) ∧
    normCode STATE_MAP (JVal.num 99) = "99" ∧
    parse_campaigns_json exCampaignRaw (.ok exCampaignJson) =
      .ok [{ Name := JVal.str "A", State := "Running", Typ := "Inbound" }] := by
  refine ⟨⟨rfl, rfl, rfl, rfl⟩, ⟨rfl, rfl, rfl⟩, ?_, ?_, ?_, rfl, rfl⟩
  · intro rec n h
    simp [normalizeRecord, h, normCode, pyIsInt, pyIntOf, pyStr, pyRepr]
  · intro rec n h
    simp [normalizeRecord, h, normCode, pyIsInt, pyIntOf, pyStr, pyRepr]
  · intro rec v h hv
    simp [normalizeRecord, h, normCode, hv]

/-- Witness for C4 at concrete single-field records. -/
theorem C4_code_tables_witness :
    (normalizeRecord [("State", JVal.num 2)]).State =
      (STATE_MAP 2).getD (toString (2 : Int)) ∧
    (normalizeRecord [("Type", JVal.num 1)]).Typ =
      (TYPE_MAP 1).getD (toString (1 : Int)) ∧
    (normalizeRecord [("State", JVal.str "FOO")]).State = pyStr (JVal.str "FOO") :=
  ⟨C4_code_tables.2.2.1 [("State", JVal.num 2)] 2 rfl,
   C4_code_tables.2.2.2.1 [("Type", JVal.num 1)] 1 rfl,
   C4_code_tables.2.2.2.2.1 [("State", JVal.str "FOO")] (JVal.str "FOO") rfl rfl⟩

/-- C5: over a decoded array of records, a record's name is appended to
the successes exactly when its `Success` field is truthy, otherwise the
name is mapped to its error message in the failures dict (the loop equals
the filter/map characterization, exactly so when the failing names are
distinct); a missing name defaults to `"(unknown)"`, a missing `Success`
is falsy and classifies as failure, a missing error message defaults to
`"Unknown error"`; and the spec's example yields successes `["A"]` and
failures `{"B": "busy"}`. -/
theorem C5_action_results :
    (∀ recs acc, processActions (recs.map JVal.obj) acc =
       .ok (acc.1 ++ successNames recs, foldInsert acc.2 (failurePairs recs))) ∧
    (∀ recs, ((failurePairs recs).map Prod.fst).Nodup →
       processActions (recs.map JVal.obj) ([], []) =
         .ok (successNames recs, failurePairs recs)) ∧
    (∀ fields, dictGet fields "Name" = none → recName fields = "(unknown)") ∧
    (∀ fields, dictGet fields "Success" = none → recSuccess fields = false) ∧
    (∀ fields, recSuccess fields = false →
       actionStep (JVal.obj fields) ([], []) =
         .ok ([], [(recName fields, recErr fields)])) ∧
    (∀ fields, dictGet fields "Error" = none → recErr fields = "Unknown error") ∧
    parse_action_results exActionRaw (.ok exActionJson) = .ok (["A"], [("B", "busy")]) := by
  refine ⟨?_, ?_, ?_, ?_, ?_, ?_, rfl⟩
  · intro recs acc
    exact processActions_obj recs acc
  · intro recs hnd
    rw [processActions_obj recs ([], [])]
    rw [foldInsert_fresh (failurePairs recs) [] hnd (by simp)]
    simp
  · intro fields h
    simp [recName, h, pyStr]
  · intro fields h
    simp [recSuccess, h, pyTruthy]
  · intro fields h
    simp [actionStep, h, dictInsert]
  · intro fields h
    simp [recErr, h, pyTruthy]

/-- Witness for C5 at concrete records. -/
theorem C5_action_results_witness :
    processActions ([[("Name", JVal.str "B"), ("Success", JVal.bool false),
        ("Error", JVal.str "busy")]].map JVal.obj) ([], []) =
      .ok ([], [("B", "busy")]) ∧
    recName [] = "(unknown)" ∧
    recSuccess [] = false ∧
    actionStep (JVal.obj []) ([], []) = .ok ([], [("(unknown)", "Unknown error")]) ∧
    recErr [] = "Unknown error" :=
  ⟨(C5_action_results.2.1 [[("Name", JVal.str "B"), ("Success", JVal.bool false),
      ("Error", JVal.str "busy")]] (by decide)).trans rfl,
   C5_action_results.2.2.1 [] rfl,
   C5_action_results.2.2.2.1 [] rfl,
   (C5_action_results.2.2.2.2.1 [] rfl).trans rfl,
   C5_action_results.2.2.2.2.2.1 [] rfl⟩

/-- C6 counterexample: the empty string is not syntactically valid JSON
(`json.loads("")` raises), yet `parse_action_results` returns an empty
failures dict rather than the single synthetic `"(unknown)"` entry the
claim requires: the `if not raw_json` guard returns `([], {})` before any
decoding is attempted. -/
theorem C6_counterexample :
    parse_action_results "" (Except.error "Expecting value: line 1 column 1 (char 0)") =
      .ok ([], []) ∧
    (parse_action_results ""
        (Except.error "Expecting value: line 1 column 1 (char 0)")).toOption.map
      (fun r => r.2.length) = some 0 :=
  ⟨rfl, rfl⟩

/-- C6 amended: for every NON-EMPTY input string that fails JSON decoding,
`parse_action_results` returns an empty successes list together with
exactly one synthetic failure entry keyed `"(unknown)"` whose value is a
fixed non-empty message describing the parse failure. -/
theorem C6_amended_invalid_json (raw : String) (e : String) (h : raw ≠ "") :
    parse_action_results raw (Except.error e) =
      .ok ([], [("(unknown)", "Failed to parse PowerShell result.")]) ∧
    "Failed to parse PowerShell result." ≠ "" := by
  refine ⟨?_, by decide⟩
  simp [parse_action_results, h]

/-- Witness for the amended C6 at the input `garbage`. -/
theorem C6_amended_invalid_json_witness :
    parse_action_results "garbage"
        (Except.error "Expecting value: line 1 column 1 (char 0)") =
      .ok ([], [("(unknown)", "Failed to parse PowerShell result.")]) ∧
    "Failed to parse PowerShell result." ≠ "" :=
  C6_amended_invalid_json "garbage" "Expecting value: line 1 column 1 (char 0)" (by decide)

/-- C7: from every install-job state, the clear handler deletes the lock,
stdout and stderr scratch artifacts, after which `get_install_status`
returns exactly the Idle status: not running, empty outputs, not done. -/
theorem C7_clear_yields_idle (fs : FS) :
    (clearInstallStatus fs).lock = none ∧
    (clearInstallStatus fs).stdoutF = none ∧
    (clearInstallStatus fs).stderrF = none ∧
    get_install_status (clearInstallStatus fs) =
      { running := false, stdout := "", stderr := "", done := false } :=
  ⟨rfl, rfl, rfl, rfl⟩

/-- C8: for every campaign table, the `Running` choice selects exactly
the rows satisfying the running predicate, the `Otherwise` choice exactly
the complement; the two selections are disjoint and together exhaust the
table (their lengths sum to the table's length). -/
theorem C8_filter_partition (df : List CampaignRecord) :
    filtered_df df true = df.filter isRunningRow ∧
    filtered_df df false = df.filter (fun r => !isRunningRow r) ∧
    (∀ r, r ∈ filtered_df df true → isRunningRow r = true) ∧
    (∀ r, r ∈ filtered_df df false → isRunningRow r = false) ∧
    (∀ r, r ∈ filtered_df df true → r ∈ filtered_df df false → False) ∧
    (∀ r, r ∈ df → r ∈ filtered_df df true ∨ r ∈ filtered_df df false) ∧
    (filtered_df df true).length + (filtered_df df false).length = df.length := by
  have h1 : filtered_df df true = df.filter isRunningRow := by
    simp only [filtered_df, if_pos rfl, running_mask]
    exact maskSelect_map isRunningRow df
  have h2 : filtered_df df false = df.filter (fun r => !isRunningRow r) := by
    have hmap : (running_mask df).map (fun b => !b) = df.map (fun r => !isRunningRow r) := by
      simp [running_mask, List.map_map, Function.comp]
    simp only [filtered_df, if_neg (Bool.false_ne_true), hmap]
    exact maskSelect_map (fun r => !isRunningRow r) df
  refine ⟨h1, h2, ?_, ?_, ?_, ?_, ?_⟩
  · intro r hr
    rw [h1] at hr
    exact (List.mem_filter.mp hr).2
  · intro r hr
    rw [h2] at hr
    have := (List.mem_filter.mp hr).2
    simpa using this
  · intro r hr1 hr2
    rw [h1] at hr1
    rw [h2] at hr2
    have t1 := (List.mem_filter.mp hr1).2
    have t2 := (List.mem_filter.mp hr2).2
    simp [t1] at t2
  · intro r hr
    by_cases hp : isRunningRow r
    · exact Or.inl (h1 ▸ List.mem_filter.mpr ⟨hr, hp⟩)
    · exact Or.inr (h2 ▸ List.mem_filter.mpr ⟨hr, by simpa using hp⟩)
  · rw [h1, h2]
    exact length_filter_add_length_filter_not isRunningRow df

/-- Witness for C8 at a concrete mixed-state table. -/
theorem C8_filter_partition_witness :
    rowA ∈ filtered_df dfEx true ∨ rowA ∈ filtered_df dfEx false :=
  (C8_filter_partition dfEx).2.2.2.2.2.1 rowA (List.mem_cons_self rowA [rowB])

/-- C9: the parsers are not total over decoded values: on the
syntactically valid JSON input `[1,2]` both raise `AttributeError`
(a Python `int` has no `items`, resp. `get`, attribute); and both return
normally whenever every decoded record is an object (a decoded dict, or
array whose elements are all dicts). -/
theorem C9_nonobject_raises :
    parse_campaigns_json "[1,2]" (.ok (JVal.arr [JVal.num 1, JVal.num 2])) =
      .error (.attributeError "int" "items") ∧
    parse_action_results "[1,2]" (.ok (JVal.arr [JVal.num 1, JVal.num 2])) =
      .error (.attributeError "int" "get") ∧
    (∀ raw parsed, (∀ r ∈ toRecords parsed, isObjB r = true) →
       isOkB (parse_campaigns_json raw (.ok parsed)) = true ∧
       isOkB (parse_action_results raw (.ok parsed)) = true) := by
  refine ⟨rfl, rfl, ?_⟩
  intro raw parsed h
  by_cases hr : raw = ""
  · simp [parse_campaigns_json, parse_action_results, hr, isOkB]
  · constructor
    · simp only [parse_campaigns_json, if_neg hr]
      exact normalizeAll_isOk _ h
    · simp only [parse_action_results, if_neg hr]
      exact processActions_isOk _ _ h

/-- Witness for C9's totality part at a decoded object. -/
theorem C9_nonobject_raises_witness :
    isOkB (parse_campaigns_json "x" (.ok (JVal.obj [("name", JVal.str "A")]))) = true ∧
    isOkB (parse_action_results "x" (.ok (JVal.obj [("name", JVal.str "A")]))) = true :=
  C9_nonobject_raises.2.2 "x" (JVal.obj [("name", JVal.str "A")])
    (by
      intro r hr
      simp only [toRecords, List.mem_singleton] at hr
      subst hr
      rfl)

/-- C10: `parse_action_results` looks `Name`, `Success` and `Error` up
case-sensitively — a record carrying none of those exact keys (for
example one spelling them in a different casing) is classified as a
failure keyed `"(unknown)"` with error `"Unknown error"` — whereas
`parse_campaigns_json` lowercases record keys first, so its field lookup
is case-insensitive: two records whose keys agree up to case normalize
identically, and the lowercase-keyed example parses fully. -/
theorem C10_case_sensitivity :
    (∀ fields, (∀ p ∈ fields, p.1 ≠ "Name" ∧ p.1 ≠ "Success" ∧ p.1 ≠ "Error") →
       actionStep (JVal.obj fields) ([], []) =
         .ok ([], [("(unknown)", "Unknown error")])) ∧
    parse_action_results lcActionRaw (.ok lcActionJson) =
      .ok ([], [("(unknown)", "Unknown error")]) ∧
    (∀ f g, lowerFields f = lowerFields g → normalizeRecord f = normalizeRecord g) ∧
    parse_campaigns_json lcCampaignRaw (.ok lcCampaignJson) =
      .ok [{ Name := JVal.str "A", State := "Running", Typ := "Inbound" }] := by
  refine ⟨?_, rfl, ?_, rfl⟩
  · intro fields h
    have hname : dictGet fields "Name" = none :=
      dictGet_eq_none fields "Name" (fun p hp => (h p hp).1)
    have hsucc : dictGet fields "Success" = none :=
      dictGet_eq_none fields "Success" (fun p hp => (h p hp).2.1)
    have herr : dictGet fields "Error" = none :=
      dictGet_eq_none fields "Error" (fun p hp => (h p hp).2.2)
    simp [actionStep, recSuccess, recName, recErr, hname, hsucc, herr,
      pyTruthy, pyStr, dictInsert]
  · intro f g h
    unfold normalizeRecord
    rw [h]

/-- Witness for C10 at a lowercase-keyed record and a case-insensitive
pair of campaign records. -/
theorem C10_case_sensitivity_witness :
    actionStep (JVal.obj [("name", JVal.str "A"), ("success", JVal.bool true)]) ([], []) =
      .ok ([], [("(unknown)", "Unknown error")]) ∧
    normalizeRecord [("NAME", JVal.str "A")] = normalizeRecord [("name", JVal.str "A")] :=
  ⟨C10_case_sensitivity.1 [("name", JVal.str "A"), ("success", JVal.bool true)] (by decide),
   C10_case_sensitivity.2.2.1 [("NAME", JVal.str "A")] [("name", JVal.str "A")] rfl⟩
